import Mathlib

/-!
# Verification of the OPNET escrow marketplace contract

A shallow embedding of `src/opnet-escrow-contract/src/escrow/EscrowMarketplace.ts`.

Storage is the host's persistent keyspace: "wide" slots addressed by a `u16`
selector plus a 32-byte sub-key and holding a 256-bit word, and "narrow" slots
addressed by a `u16` selector alone and holding an address.  Machine integers
are modelled as `Nat` with explicit `% 2^64` (`toU64`) and `% 2^16` where the
source truncates.  Each contract method becomes a function
`Ctx → args → Storage → Except String (Storage × Nat)`; an `assert` failure in
the source is an `Except.error`, and the host's call semantics (`call`) keeps
the pre-state on error.
-/

namespace Escrow

/-- `2^64`, the modulus of the source's `u64` type. -/
def U64_MOD : Nat := 18446744073709551616

/-- `2^256`, the modulus of the source's `u256` type. -/
def U256_MOD : Nat := 115792089237316195423570985008687907853269984665640564039457584007913129639936

/-- `u256.toU64()` — truncation of a 256-bit word to its low 64 bits. -/
def toU64 (v : Nat) : Nat := v % U64_MOD

-- Order states (`STATE_CREATED` .. `STATE_DISPUTED` in the source).
def STATE_CREATED : Nat := 1
def STATE_ACCEPTED : Nat := 2
def STATE_FUNDED : Nat := 3
def STATE_COMPLETED : Nat := 4
def STATE_CANCELLED : Nat := 5
def STATE_DISPUTED : Nat := 6

-- Pointer bases for StoredU256 fields.
def PTR_ORDER_COUNT : Nat := 1
def PTR_PRICE : Nat := 10
def PTR_LOCKED : Nat := 11
def PTR_STATE : Nat := 12
def PTR_DEADLINE : Nat := 13
def PTR_ACCEPTED_AT : Nat := 14

-- Pointer bases for StoredAddress (orderId encoded in the pointer directly).
def PTR_SELLER_BASE : Nat := 100
def PTR_BUYER_BASE : Nat := 10000

/-- `subPtr(orderId)`: a 32-byte sub-pointer, upper 24 bytes zero, the
`u64` order id big-endian in bytes 24..31 (source `subPtr`). -/
def subPtr (orderId : Nat) : List Nat :=
  [0, 0, 0, 0, 0, 0, 0, 0, 0, 0, 0, 0, 0, 0, 0, 0, 0, 0, 0, 0, 0, 0, 0, 0,
   orderId / 72057594037927936 % 256,
   orderId / 281474976710656 % 256,
   orderId / 1099511627776 % 256,
   orderId / 4294967296 % 256,
   orderId / 16777216 % 256,
   orderId / 65536 % 256,
   orderId / 256 % 256,
   orderId % 256]

/-- The all-zero 32-byte sub-pointer (`new Uint8Array(32)`), used for the
global order counter. -/
def zeroSub : List Nat :=
  [0, 0, 0, 0, 0, 0, 0, 0, 0, 0, 0, 0, 0, 0, 0, 0, 0, 0, 0, 0, 0, 0, 0, 0,
   0, 0, 0, 0, 0, 0, 0, 0]

/-- The host's persistent keyspace: wide slots (u16 selector + 32-byte
sub-key → 256-bit word) and narrow slots (u16 selector → address).  Reads of
an unwritten slot return zero. -/
structure Storage where
  wide : Nat → List Nat → Nat
  narrow : Nat → Nat

/-- Fresh storage: every slot reads as zero. -/
def Storage.empty : Storage := ⟨fun _ _ => 0, fun _ => 0⟩

/-- Write a wide slot. -/
def writeWide (st : Storage) (sel : Nat) (sub : List Nat) (v : Nat) : Storage :=
  { st with wide := fun s k => if s = sel ∧ k = sub then v else st.wide s k }

/-- Write a narrow slot. -/
def writeNarrow (st : Storage) (sel : Nat) (v : Nat) : Storage :=
  { st with narrow := fun s => if s = sel then v else st.narrow s }

/-- Storage right after deployment: `onDeployment` sets the order counter
to zero. -/
def deployed : Storage := writeWide Storage.empty PTR_ORDER_COUNT zeroSub 0

-- Accessors, each reading exactly the slot the source reads.

/-- The stored order counter, read as `u64` (`_orderCount.value.toU64()`). -/
def counterOf (st : Storage) : Nat := toU64 (st.wide PTR_ORDER_COUNT zeroSub)

/-- An order's state, read as `u64`. -/
def stateOf (st : Storage) (id : Nat) : Nat := toU64 (st.wide PTR_STATE (subPtr id))

/-- An order's locked amount (raw 256-bit word). -/
def lockedOf (st : Storage) (id : Nat) : Nat := st.wide PTR_LOCKED (subPtr id)

/-- An order's price (raw 256-bit word). -/
def priceOf (st : Storage) (id : Nat) : Nat := st.wide PTR_PRICE (subPtr id)

/-- An order's deadline, read as `u64`. -/
def deadlineOf (st : Storage) (id : Nat) : Nat := toU64 (st.wide PTR_DEADLINE (subPtr id))

/-- An order's acceptance height, read as `u64`. -/
def acceptedAtOf (st : Storage) (id : Nat) : Nat := toU64 (st.wide PTR_ACCEPTED_AT (subPtr id))

/-- An order's seller: narrow slot `u16(PTR_SELLER_BASE + orderId)`. -/
def sellerOf (st : Storage) (id : Nat) : Nat := st.narrow ((PTR_SELLER_BASE + id) % 65536)

/-- An order's buyer: narrow slot `u16(PTR_BUYER_BASE + orderId)`. -/
def buyerOf (st : Storage) (id : Nat) : Nat := st.narrow ((PTR_BUYER_BASE + id) % 65536)

-- Basic lemmas about sub-pointers and storage writes.

theorem subPtr_inj {a b : Nat} (ha : a < U64_MOD) (hb : b < U64_MOD)
    (h : subPtr a = subPtr b) : a = b := by
  simp only [subPtr, List.cons.injEq, and_true] at h
  simp only [U64_MOD] at ha hb
  omega

theorem subPtr_eq_iff {a b : Nat} (ha : a < U64_MOD) (hb : b < U64_MOD) :
    subPtr a = subPtr b ↔ a = b :=
  ⟨subPtr_inj ha hb, fun h => h ▸ rfl⟩

theorem zeroSub_eq_subPtr_zero : zeroSub = subPtr 0 := rfl

@[simp] theorem wide_writeWide (st : Storage) (sel : Nat) (sub : List Nat) (v s : Nat)
    (k : List Nat) :
    (writeWide st sel sub v).wide s k = if s = sel ∧ k = sub then v else st.wide s k := rfl

@[simp] theorem narrow_writeWide (st : Storage) (sel : Nat) (sub : List Nat) (v : Nat) :
    (writeWide st sel sub v).narrow = st.narrow := rfl

@[simp] theorem wide_writeNarrow (st : Storage) (sel v : Nat) :
    (writeNarrow st sel v).wide = st.wide := rfl

@[simp] theorem narrow_writeNarrow (st : Storage) (sel v s : Nat) :
    (writeNarrow st sel v).narrow s = if s = sel then v else st.narrow s := rfl

/-! ## The storage addressing layer as a pure key-resolution function -/

/-- A storage key: either a wide slot (u16 selector + 32-byte sub-key) or a
narrow slot (u16 selector only).  The host distinguishes the two shapes. -/
inductive StorageKey where
  | wide (selector : Nat) (subKey : List Nat)
  | narrow (selector : Nat)
deriving DecidableEq

/-- A logical field reference: the global counter, or a per-order field. -/
inductive FieldRef where
  | orderCount
  | price (id : Nat)
  | locked (id : Nat)
  | state (id : Nat)
  | deadline (id : Nat)
  | acceptedAt (id : Nat)
  | seller (id : Nat)
  | buyer (id : Nat)
deriving DecidableEq

/-- The order id of a field reference (0 for the global counter). -/
def FieldRef.idOf : FieldRef → Nat
  | .orderCount => 0
  | .price id | .locked id | .state id | .deadline id | .acceptedAt id
  | .seller id | .buyer id => id

/-- A field reference is in the supported range when its order id lies in
`[1, 9899]` (the global counter is always supported). -/
def FieldRef.wf : FieldRef → Prop
  | .orderCount => True
  | r => 1 ≤ r.idOf ∧ r.idOf ≤ 9899

/-- The storage key each field resolves to, exactly as the source builds it:
wide fields use a fixed selector plus `subPtr orderId`; seller/buyer fold the
order id into the narrow selector (`u16(base + orderId)`). -/
def resolve : FieldRef → StorageKey
  | .orderCount => .wide PTR_ORDER_COUNT zeroSub
  | .price id => .wide PTR_PRICE (subPtr id)
  | .locked id => .wide PTR_LOCKED (subPtr id)
  | .state id => .wide PTR_STATE (subPtr id)
  | .deadline id => .wide PTR_DEADLINE (subPtr id)
  | .acceptedAt id => .wide PTR_ACCEPTED_AT (subPtr id)
  | .seller id => .narrow ((PTR_SELLER_BASE + id) % 65536)
  | .buyer id => .narrow ((PTR_BUYER_BASE + id) % 65536)

/-- Big-endian recomposition of a byte list. -/
def decodeBE (bs : List Nat) : Nat := bs.foldl (fun a b => a * 256 + b) 0

/-! ## The contract operations -/

/-- The block context the host supplies: caller identity and block height. -/
structure Ctx where
  sender : Nat
  height : Nat

/-- Host guarantees on a call context: the caller is a real (nonzero)
address and the block height is a `u64`. -/
def Ctx.wf (c : Ctx) : Prop := c.sender ≠ 0 ∧ c.height < U64_MOD

/-- `createOrder(price, deadlineBlocks)`: validate inputs, allocate
`counter + 1` with checked 64-bit addition, persist the counter, the seller,
and the five wide fields; the deadline uses a second checked addition
(which in the source happens after the earlier writes — the host reverts
them on abort). -/
def createOrder (c : Ctx) (price deadlineBlocks : Nat) (st : Storage) :
    Except String (Storage × Nat) :=
  if price = 0 then .error "Price must be > 0"
  else if deadlineBlocks < 6 then .error "Deadline must be >= 6 blocks"
  else
    let cnt := counterOf st
    if U64_MOD ≤ cnt + 1 then .error "SafeMath: addition overflow"
    else
      let orderId := cnt + 1
      let st1 := writeWide st PTR_ORDER_COUNT zeroSub orderId
      let st2 := writeNarrow st1 ((PTR_SELLER_BASE + orderId) % 65536) c.sender
      let st3 := writeWide st2 PTR_PRICE (subPtr orderId) price
      let st4 := writeWide st3 PTR_LOCKED (subPtr orderId) 0
      let st5 := writeWide st4 PTR_STATE (subPtr orderId) STATE_CREATED
      if U64_MOD ≤ c.height + deadlineBlocks then .error "SafeMath: addition overflow"
      else
        let st6 := writeWide st5 PTR_DEADLINE (subPtr orderId) (c.height + deadlineBlocks)
        let st7 := writeWide st6 PTR_ACCEPTED_AT (subPtr orderId) 0
        .ok (st7, orderId)

/-- The storage written by a successful `acceptOrder`. -/
def acceptPost (c : Ctx) (orderId : Nat) (st : Storage) : Storage :=
  let st1 := writeNarrow st ((PTR_BUYER_BASE + orderId) % 65536) c.sender
  let st2 := writeWide st1 PTR_STATE (subPtr orderId) STATE_ACCEPTED
  writeWide st2 PTR_ACCEPTED_AT (subPtr orderId) c.height

/-- `acceptOrder(orderId)`: requires state `Created` and
`height ≤ deadline`; writes buyer, state `Accepted`, and `acceptedAt`. -/
def acceptOrder (c : Ctx) (orderId : Nat) (st : Storage) :
    Except String (Storage × Nat) :=
  if stateOf st orderId = STATE_CREATED then
    if c.height ≤ deadlineOf st orderId then .ok (acceptPost c orderId st, 1)
    else .error "Order deadline passed"
  else .error "Order not in Created state"

/-- The storage written by a successful `fundOrder`. -/
def fundPost (orderId : Nat) (st : Storage) : Storage :=
  let st1 := writeWide st PTR_LOCKED (subPtr orderId) (priceOf st orderId)
  writeWide st1 PTR_STATE (subPtr orderId) STATE_FUNDED

/-- `fundOrder(orderId)`: requires state `Accepted` and caller = buyer;
sets `locked` to the stored price and state to `Funded`. -/
def fundOrder (c : Ctx) (orderId : Nat) (st : Storage) :
    Except String (Storage × Nat) :=
  if stateOf st orderId = STATE_ACCEPTED then
    if buyerOf st orderId = c.sender then .ok (fundPost orderId st, 1)
    else .error "Only buyer can fund"
  else .error "Order not in Accepted state"

/-- The storage written by a successful `confirmCompletion`. -/
def confirmPost (orderId : Nat) (st : Storage) : Storage :=
  let st1 := writeWide st PTR_LOCKED (subPtr orderId) 0
  writeWide st1 PTR_STATE (subPtr orderId) STATE_COMPLETED

/-- `confirmCompletion(orderId)`: requires state `Funded` and caller =
buyer; zeroes `locked` and sets state `Completed`. -/
def confirmCompletion (c : Ctx) (orderId : Nat) (st : Storage) :
    Except String (Storage × Nat) :=
  if stateOf st orderId = STATE_FUNDED then
    if buyerOf st orderId = c.sender then .ok (confirmPost orderId st, 1)
    else .error "Only buyer can confirm"
  else .error "Order not in Funded state"

/-- The storage written by a successful `cancelOrder`. -/
def cancelPost (orderId : Nat) (st : Storage) : Storage :=
  let st1 := writeWide st PTR_LOCKED (subPtr orderId) 0
  writeWide st1 PTR_STATE (subPtr orderId) STATE_CANCELLED

/-- `cancelOrder(orderId)`: requires state in
`{Created, Accepted, Funded, Disputed}` and caller ∈ {seller, buyer};
zeroes `locked` and sets state `Cancelled`. -/
def cancelOrder (c : Ctx) (orderId : Nat) (st : Storage) :
    Except String (Storage × Nat) :=
  if stateOf st orderId = STATE_CREATED ∨ stateOf st orderId = STATE_ACCEPTED ∨
     stateOf st orderId = STATE_FUNDED ∨ stateOf st orderId = STATE_DISPUTED then
    if sellerOf st orderId = c.sender ∨ buyerOf st orderId = c.sender then
      .ok (cancelPost orderId st, 1)
    else .error "Only seller or buyer can cancel"
  else .error "Cannot cancel in current state"

/-- The storage written by a successful `openDispute`. -/
def disputePost (orderId : Nat) (st : Storage) : Storage :=
  writeWide st PTR_STATE (subPtr orderId) STATE_DISPUTED

/-- `openDispute(orderId)`: requires state `Funded` and caller ∈
{seller, buyer}; sets state `Disputed` and leaves `locked` unchanged. -/
def openDispute (c : Ctx) (orderId : Nat) (st : Storage) :
    Except String (Storage × Nat) :=
  if stateOf st orderId = STATE_FUNDED then
    if sellerOf st orderId = c.sender ∨ buyerOf st orderId = c.sender then
      .ok (disputePost orderId st, 1)
    else .error "Only seller or buyer can open dispute"
  else .error "Cannot dispute in current state"

/-- The tuple `getOrder` encodes into its return writer. -/
structure OrderView where
  orderId : Nat
  seller : Nat
  buyer : Nat
  price : Nat
  locked : Nat
  state : Nat
  deadline : Nat
  acceptedAt : Nat
deriving DecidableEq

/-- `getOrder(orderId)`: reads every field of the order (read-only; no
existence check — an unwritten order reads as zero defaults).  The state is
returned as `u8(value.toU64())`. -/
def getOrder (orderId : Nat) (st : Storage) : OrderView :=
  { orderId := orderId
    seller := sellerOf st orderId
    buyer := buyerOf st orderId
    price := priceOf st orderId
    locked := lockedOf st orderId
    state := stateOf st orderId % 256
    deadline := deadlineOf st orderId
    acceptedAt := acceptedAtOf st orderId }

/-- The scan loop of `getEscrowStats`: sum the `locked` of orders `1..n`
whose state is `Funded` or `Disputed`, in ascending order, with checked
256-bit addition. -/
def lockedSum (st : Storage) : Nat → Except String Nat
  | 0 => .ok 0
  | n + 1 =>
    match lockedSum st n with
    | .error e => .error e
    | .ok acc =>
      if stateOf st (n + 1) = STATE_FUNDED ∨ stateOf st (n + 1) = STATE_DISPUTED then
        if U256_MOD ≤ acc + lockedOf st (n + 1) then .error "SafeMath: addition overflow"
        else .ok (acc + lockedOf st (n + 1))
      else .ok acc

/-- `getEscrowStats()`: read-only; returns
`(contractBalance, totalLocked, orderCount)` where the first two components
are the same checked sum over all orders `1..orderCount`. -/
def getEscrowStats (st : Storage) : Except String (Nat × Nat × Nat) :=
  match lockedSum st (counterOf st) with
  | .error e => .error e
  | .ok total => .ok (total, total, counterOf st)

/-! ## Calls, the host's atomicity, and reachability -/

/-- A mutating operation together with its decoded arguments. -/
inductive Op where
  | create (price deadlineBlocks : Nat)
  | accept (orderId : Nat)
  | fund (orderId : Nat)
  | confirm (orderId : Nat)
  | cancel (orderId : Nat)
  | dispute (orderId : Nat)
deriving DecidableEq

/-- Calldata well-formedness: each argument fits its declared width. -/
def Op.wf : Op → Prop
  | .create price deadlineBlocks => price < U256_MOD ∧ deadlineBlocks < U64_MOD
  | .accept id | .fund id | .confirm id | .cancel id | .dispute id => id < U64_MOD

/-- Dispatch an operation to its method. -/
def run : Op → Ctx → Storage → Except String (Storage × Nat)
  | .create price deadlineBlocks => fun c st => createOrder c price deadlineBlocks st
  | .accept id => fun c st => acceptOrder c id st
  | .fund id => fun c st => fundOrder c id st
  | .confirm id => fun c st => confirmCompletion c id st
  | .cancel id => fun c st => cancelOrder c id st
  | .dispute id => fun c st => openDispute c id st

/-- Whether an `Except` computation succeeded. -/
def isOk : Except String (Storage × Nat) → Bool
  | .ok _ => true
  | .error _ => false

/-- The host's call semantics: a successful call commits the new storage
and returns the result; a failed call leaves storage exactly as it was. -/
def call (op : Op) (c : Ctx) (st : Storage) : Storage × Option Nat :=
  match run op c st with
  | .ok (st', r) => (st', some r)
  | .error _ => (st, none)

/-- Zero or more well-formed calls starting from `st`. -/
inductive Steps : Storage → Storage → Prop where
  | refl (st : Storage) : Steps st st
  | tail {st st' : Storage} (op : Op) (c : Ctx) :
      Steps st st' → Ctx.wf c → Op.wf op → Steps st (call op c st').1

/-- A storage reachable from deployment by well-formed calls. -/
def Reachable (st : Storage) : Prop := Steps deployed st

/-! ## Characterisation of each operation's effect on storage -/

theorem toU64_small {v : Nat} (h : v < U64_MOD) : toU64 v = v := Nat.mod_eq_of_lt h

@[simp] theorem toU64_zero : toU64 0 = 0 := rfl
@[simp] theorem toU64_one : toU64 1 = 1 := by decide
@[simp] theorem toU64_two : toU64 2 = 2 := by decide
@[simp] theorem toU64_three : toU64 3 = 3 := by decide
@[simp] theorem toU64_four : toU64 4 = 4 := by decide
@[simp] theorem toU64_five : toU64 5 = 5 := by decide
@[simp] theorem toU64_six : toU64 6 = 6 := by decide

/-- The storage written by a successful `createOrder` allocating id `oid`. -/
def createPost (c : Ctx) (price deadlineBlocks oid : Nat) (st : Storage) : Storage :=
  writeWide
    (writeWide
      (writeWide
        (writeWide
          (writeWide
            (writeNarrow (writeWide st PTR_ORDER_COUNT zeroSub oid)
              ((PTR_SELLER_BASE + oid) % 65536) c.sender)
            PTR_PRICE (subPtr oid) price)
          PTR_LOCKED (subPtr oid) 0)
        PTR_STATE (subPtr oid) STATE_CREATED)
      PTR_DEADLINE (subPtr oid) (c.height + deadlineBlocks))
    PTR_ACCEPTED_AT (subPtr oid) 0

theorem createOrder_eq (c : Ctx) (price deadlineBlocks : Nat) (st : Storage) :
    createOrder c price deadlineBlocks st =
      if price = 0 then .error "Price must be > 0"
      else if deadlineBlocks < 6 then .error "Deadline must be >= 6 blocks"
      else if U64_MOD ≤ counterOf st + 1 then .error "SafeMath: addition overflow"
      else if U64_MOD ≤ c.height + deadlineBlocks then .error "SafeMath: addition overflow"
      else .ok (createPost c price deadlineBlocks (counterOf st + 1) st, counterOf st + 1) := by
  simp only [createOrder, createPost]

theorem counterOf_createPost (c : Ctx) (p db oid : Nat) (st : Storage)
    (hoid : oid < U64_MOD) : counterOf (createPost c p db oid st) = oid := by
  simp [createPost, counterOf, PTR_ORDER_COUNT, PTR_PRICE, PTR_LOCKED, PTR_STATE,
    PTR_DEADLINE, PTR_ACCEPTED_AT, toU64_small hoid]

theorem stateOf_createPost (c : Ctx) (p db oid : Nat) (st : Storage) (id : Nat)
    (hid : id < U64_MOD) (hoid : oid < U64_MOD) :
    stateOf (createPost c p db oid st) id =
      if id = oid then STATE_CREATED else stateOf st id := by
  simp only [createPost, stateOf, wide_writeWide, wide_writeNarrow, PTR_ORDER_COUNT,
    PTR_PRICE, PTR_LOCKED, PTR_STATE, PTR_DEADLINE, PTR_ACCEPTED_AT]
  simp only [show (12 : Nat) ≠ 14 by decide, show (12 : Nat) ≠ 13 by decide,
    show (12 : Nat) ≠ 11 by decide, show (12 : Nat) ≠ 10 by decide,
    show (12 : Nat) ≠ 1 by decide, false_and, if_false, eq_self_iff_true, true_and]
  simp only [subPtr_eq_iff hid hoid]
  by_cases h : id = oid <;> simp [h, STATE_CREATED]

theorem lockedOf_createPost (c : Ctx) (p db oid : Nat) (st : Storage) (id : Nat)
    (hid : id < U64_MOD) (hoid : oid < U64_MOD) :
    lockedOf (createPost c p db oid st) id =
      if id = oid then 0 else lockedOf st id := by
  simp only [createPost, lockedOf, wide_writeWide, wide_writeNarrow, PTR_ORDER_COUNT,
    PTR_PRICE, PTR_LOCKED, PTR_STATE, PTR_DEADLINE, PTR_ACCEPTED_AT]
  simp only [show (11 : Nat) ≠ 14 by decide, show (11 : Nat) ≠ 13 by decide,
    show (11 : Nat) ≠ 12 by decide, show (11 : Nat) ≠ 10 by decide,
    show (11 : Nat) ≠ 1 by decide, false_and, if_false, eq_self_iff_true, true_and]
  simp only [subPtr_eq_iff hid hoid]

theorem priceOf_createPost (c : Ctx) (p db oid : Nat) (st : Storage) (id : Nat)
    (hid : id < U64_MOD) (hoid : oid < U64_MOD) :
    priceOf (createPost c p db oid st) id =
      if id = oid then p else priceOf st id := by
  simp only [createPost, priceOf, wide_writeWide, wide_writeNarrow, PTR_ORDER_COUNT,
    PTR_PRICE, PTR_LOCKED, PTR_STATE, PTR_DEADLINE, PTR_ACCEPTED_AT]
  simp only [show (10 : Nat) ≠ 14 by decide, show (10 : Nat) ≠ 13 by decide,
    show (10 : Nat) ≠ 12 by decide, show (10 : Nat) ≠ 11 by decide,
    show (10 : Nat) ≠ 1 by decide, false_and, if_false, eq_self_iff_true, true_and]
  simp only [subPtr_eq_iff hid hoid]

theorem deadlineOf_createPost (c : Ctx) (p db oid : Nat) (st : Storage) (id : Nat)
    (hid : id < U64_MOD) (hoid : oid < U64_MOD) :
    deadlineOf (createPost c p db oid st) id =
      if id = oid then toU64 (c.height + db) else deadlineOf st id := by
  simp only [createPost, deadlineOf, wide_writeWide, wide_writeNarrow, PTR_ORDER_COUNT,
    PTR_PRICE, PTR_LOCKED, PTR_STATE, PTR_DEADLINE, PTR_ACCEPTED_AT]
  simp only [show (13 : Nat) ≠ 14 by decide, show (13 : Nat) ≠ 12 by decide,
    show (13 : Nat) ≠ 11 by decide, show (13 : Nat) ≠ 10 by decide,
    show (13 : Nat) ≠ 1 by decide, false_and, if_false, eq_self_iff_true, true_and]
  simp only [subPtr_eq_iff hid hoid]
  by_cases h : id = oid <;> simp [h]

theorem acceptedAtOf_createPost (c : Ctx) (p db oid : Nat) (st : Storage) (id : Nat)
    (hid : id < U64_MOD) (hoid : oid < U64_MOD) :
    acceptedAtOf (createPost c p db oid st) id =
      if id = oid then 0 else acceptedAtOf st id := by
  simp only [createPost, acceptedAtOf, wide_writeWide, wide_writeNarrow, PTR_ORDER_COUNT,
    PTR_PRICE, PTR_LOCKED, PTR_STATE, PTR_DEADLINE, PTR_ACCEPTED_AT]
  simp only [show (14 : Nat) ≠ 13 by decide, show (14 : Nat) ≠ 12 by decide,
    show (14 : Nat) ≠ 11 by decide, show (14 : Nat) ≠ 10 by decide,
    show (14 : Nat) ≠ 1 by decide, false_and, if_false, eq_self_iff_true, true_and]
  simp only [subPtr_eq_iff hid hoid]
  by_cases h : id = oid <;> simp [h]

theorem buyerOf_createPost (c : Ctx) (p db oid : Nat) (st : Storage) (id : Nat)
    (hid : id ≤ 9899) (hoid : oid ≤ 9899) :
    buyerOf (createPost c p db oid st) id = buyerOf st id := by
  simp only [createPost, buyerOf, narrow_writeWide, narrow_writeNarrow,
    PTR_BUYER_BASE, PTR_SELLER_BASE]
  rw [if_neg]
  omega

theorem sellerOf_createPost_self (c : Ctx) (p db oid : Nat) (st : Storage) :
    sellerOf (createPost c p db oid st) oid = c.sender := by
  simp [createPost, sellerOf]

-- Generic frame lemmas: a write to one selector leaves reads through every
-- other selector unchanged.

theorem counterOf_writeWide_ne (st : Storage) (sel : Nat) (sub : List Nat) (v : Nat)
    (h : sel ≠ PTR_ORDER_COUNT) : counterOf (writeWide st sel sub v) = counterOf st := by
  unfold counterOf
  rw [wide_writeWide, if_neg]
  exact fun hc => h hc.1.symm

theorem counterOf_writeNarrow (st : Storage) (sel v : Nat) :
    counterOf (writeNarrow st sel v) = counterOf st := rfl

theorem stateOf_writeWide_ne (st : Storage) (sel : Nat) (sub : List Nat) (v id : Nat)
    (h : sel ≠ PTR_STATE) : stateOf (writeWide st sel sub v) id = stateOf st id := by
  unfold stateOf
  rw [wide_writeWide, if_neg]
  exact fun hc => h hc.1.symm

theorem stateOf_writeState (st : Storage) (j v id : Nat)
    (hid : id < U64_MOD) (hj : j < U64_MOD) :
    stateOf (writeWide st PTR_STATE (subPtr j) v) id =
      if id = j then toU64 v else stateOf st id := by
  simp only [stateOf, wide_writeWide, eq_self_iff_true, true_and, subPtr_eq_iff hid hj]
  by_cases h : id = j <;> simp [h]

theorem lockedOf_writeWide_ne (st : Storage) (sel : Nat) (sub : List Nat) (v id : Nat)
    (h : sel ≠ PTR_LOCKED) : lockedOf (writeWide st sel sub v) id = lockedOf st id := by
  unfold lockedOf
  rw [wide_writeWide, if_neg]
  exact fun hc => h hc.1.symm

theorem lockedOf_writeLocked (st : Storage) (j v id : Nat)
    (hid : id < U64_MOD) (hj : j < U64_MOD) :
    lockedOf (writeWide st PTR_LOCKED (subPtr j) v) id =
      if id = j then v else lockedOf st id := by
  simp only [lockedOf, wide_writeWide, eq_self_iff_true, true_and, subPtr_eq_iff hid hj]

theorem priceOf_writeWide_ne (st : Storage) (sel : Nat) (sub : List Nat) (v id : Nat)
    (h : sel ≠ PTR_PRICE) : priceOf (writeWide st sel sub v) id = priceOf st id := by
  unfold priceOf
  rw [wide_writeWide, if_neg]
  exact fun hc => h hc.1.symm

theorem deadlineOf_writeWide_ne (st : Storage) (sel : Nat) (sub : List Nat) (v id : Nat)
    (h : sel ≠ PTR_DEADLINE) : deadlineOf (writeWide st sel sub v) id = deadlineOf st id := by
  unfold deadlineOf
  rw [wide_writeWide, if_neg]
  exact fun hc => h hc.1.symm

theorem acceptedAtOf_writeWide_ne (st : Storage) (sel : Nat) (sub : List Nat) (v id : Nat)
    (h : sel ≠ PTR_ACCEPTED_AT) :
    acceptedAtOf (writeWide st sel sub v) id = acceptedAtOf st id := by
  unfold acceptedAtOf
  rw [wide_writeWide, if_neg]
  exact fun hc => h hc.1.symm

theorem acceptedAtOf_writeAcceptedAt (st : Storage) (j v id : Nat)
    (hid : id < U64_MOD) (hj : j < U64_MOD) :
    acceptedAtOf (writeWide st PTR_ACCEPTED_AT (subPtr j) v) id =
      if id = j then toU64 v else acceptedAtOf st id := by
  simp only [acceptedAtOf, wide_writeWide, eq_self_iff_true, true_and, subPtr_eq_iff hid hj]
  by_cases h : id = j <;> simp [h]

theorem stateOf_writeNarrow (st : Storage) (sel v id : Nat) :
    stateOf (writeNarrow st sel v) id = stateOf st id := rfl

theorem lockedOf_writeNarrow (st : Storage) (sel v id : Nat) :
    lockedOf (writeNarrow st sel v) id = lockedOf st id := rfl

theorem priceOf_writeNarrow (st : Storage) (sel v id : Nat) :
    priceOf (writeNarrow st sel v) id = priceOf st id := rfl

theorem deadlineOf_writeNarrow (st : Storage) (sel v id : Nat) :
    deadlineOf (writeNarrow st sel v) id = deadlineOf st id := rfl

theorem acceptedAtOf_writeNarrow (st : Storage) (sel v id : Nat) :
    acceptedAtOf (writeNarrow st sel v) id = acceptedAtOf st id := rfl

theorem buyerOf_writeWide (st : Storage) (sel : Nat) (sub : List Nat) (v id : Nat) :
    buyerOf (writeWide st sel sub v) id = buyerOf st id := rfl

theorem sellerOf_writeWide (st : Storage) (sel : Nat) (sub : List Nat) (v id : Nat) :
    sellerOf (writeWide st sel sub v) id = sellerOf st id := rfl

theorem buyerOf_writeNarrow (st : Storage) (sel v id : Nat) :
    buyerOf (writeNarrow st sel v) id =
      if (PTR_BUYER_BASE + id) % 65536 = sel then v else buyerOf st id := rfl

theorem sellerOf_writeNarrow (st : Storage) (sel v id : Nat) :
    sellerOf (writeNarrow st sel v) id =
      if (PTR_SELLER_BASE + id) % 65536 = sel then v else sellerOf st id := rfl

-- acceptPost characterisation.

theorem counterOf_acceptPost (c : Ctx) (j : Nat) (st : Storage) :
    counterOf (acceptPost c j st) = counterOf st := by
  simp only [acceptPost]
  rw [counterOf_writeWide_ne _ _ _ _ (by decide), counterOf_writeWide_ne _ _ _ _ (by decide),
    counterOf_writeNarrow]

theorem stateOf_acceptPost (c : Ctx) (j : Nat) (st : Storage) (id : Nat)
    (hid : id < U64_MOD) (hj : j < U64_MOD) :
    stateOf (acceptPost c j st) id =
      if id = j then STATE_ACCEPTED else stateOf st id := by
  simp only [acceptPost]
  rw [stateOf_writeWide_ne _ _ _ _ _ (by decide),
    stateOf_writeState _ _ _ _ hid hj, stateOf_writeNarrow]
  by_cases h : id = j <;> simp [h, STATE_ACCEPTED]

theorem lockedOf_acceptPost (c : Ctx) (j : Nat) (st : Storage) (id : Nat) :
    lockedOf (acceptPost c j st) id = lockedOf st id := by
  simp only [acceptPost]
  rw [lockedOf_writeWide_ne _ _ _ _ _ (by decide),
    lockedOf_writeWide_ne _ _ _ _ _ (by decide), lockedOf_writeNarrow]

theorem priceOf_acceptPost (c : Ctx) (j : Nat) (st : Storage) (id : Nat) :
    priceOf (acceptPost c j st) id = priceOf st id := by
  simp only [acceptPost]
  rw [priceOf_writeWide_ne _ _ _ _ _ (by decide),
    priceOf_writeWide_ne _ _ _ _ _ (by decide), priceOf_writeNarrow]

theorem deadlineOf_acceptPost (c : Ctx) (j : Nat) (st : Storage) (id : Nat) :
    deadlineOf (acceptPost c j st) id = deadlineOf st id := by
  simp only [acceptPost]
  rw [deadlineOf_writeWide_ne _ _ _ _ _ (by decide),
    deadlineOf_writeWide_ne _ _ _ _ _ (by decide), deadlineOf_writeNarrow]

theorem acceptedAtOf_acceptPost (c : Ctx) (j : Nat) (st : Storage) (id : Nat)
    (hid : id < U64_MOD) (hj : j < U64_MOD) :
    acceptedAtOf (acceptPost c j st) id =
      if id = j then toU64 c.height else acceptedAtOf st id := by
  simp only [acceptPost]
  rw [acceptedAtOf_writeAcceptedAt _ _ _ _ hid hj,
    acceptedAtOf_writeWide_ne _ _ _ _ _ (by decide), acceptedAtOf_writeNarrow]

theorem buyerOf_acceptPost (c : Ctx) (j : Nat) (st : Storage) (id : Nat)
    (hid : id ≤ 9899) (hj : j ≤ 9899) :
    buyerOf (acceptPost c j st) id =
      if id = j then c.sender else buyerOf st id := by
  simp only [acceptPost, buyerOf_writeWide, buyerOf_writeNarrow, PTR_BUYER_BASE]
  by_cases h : id = j
  · simp [h]
  · rw [if_neg, if_neg h]
    omega

theorem buyerOf_acceptPost_self (c : Ctx) (j : Nat) (st : Storage) :
    buyerOf (acceptPost c j st) j = c.sender := by
  simp [acceptPost, buyerOf_writeWide, buyerOf_writeNarrow]

theorem sellerOf_acceptPost (c : Ctx) (j : Nat) (st : Storage) (id : Nat)
    (hid : id ≤ 9899) (hj : j ≤ 9899) :
    sellerOf (acceptPost c j st) id = sellerOf st id := by
  simp only [acceptPost, sellerOf_writeWide, sellerOf_writeNarrow,
    PTR_SELLER_BASE, PTR_BUYER_BASE]
  rw [if_neg]
  omega

-- fundPost characterisation.

theorem counterOf_fundPost (j : Nat) (st : Storage) :
    counterOf (fundPost j st) = counterOf st := by
  simp only [fundPost]
  rw [counterOf_writeWide_ne _ _ _ _ (by decide), counterOf_writeWide_ne _ _ _ _ (by decide)]

theorem stateOf_fundPost (j : Nat) (st : Storage) (id : Nat)
    (hid : id < U64_MOD) (hj : j < U64_MOD) :
    stateOf (fundPost j st) id =
      if id = j then STATE_FUNDED else stateOf st id := by
  simp only [fundPost]
  rw [stateOf_writeState _ _ _ _ hid hj, stateOf_writeWide_ne _ _ _ _ _ (by decide)]
  by_cases h : id = j <;> simp [h, STATE_FUNDED]

theorem lockedOf_fundPost (j : Nat) (st : Storage) (id : Nat)
    (hid : id < U64_MOD) (hj : j < U64_MOD) :
    lockedOf (fundPost j st) id =
      if id = j then priceOf st j else lockedOf st id := by
  simp only [fundPost]
  rw [lockedOf_writeWide_ne _ _ _ _ _ (by decide), lockedOf_writeLocked _ _ _ _ hid hj]

theorem priceOf_fundPost (j : Nat) (st : Storage) (id : Nat) :
    priceOf (fundPost j st) id = priceOf st id := by
  simp only [fundPost]
  rw [priceOf_writeWide_ne _ _ _ _ _ (by decide),
    priceOf_writeWide_ne _ _ _ _ _ (by decide)]

theorem buyerOf_fundPost (j : Nat) (st : Storage) (id : Nat) :
    buyerOf (fundPost j st) id = buyerOf st id := rfl

theorem sellerOf_fundPost (j : Nat) (st : Storage) (id : Nat) :
    sellerOf (fundPost j st) id = sellerOf st id := rfl

theorem deadlineOf_fundPost (j : Nat) (st : Storage) (id : Nat) :
    deadlineOf (fundPost j st) id = deadlineOf st id := by
  simp only [fundPost]
  rw [deadlineOf_writeWide_ne _ _ _ _ _ (by decide),
    deadlineOf_writeWide_ne _ _ _ _ _ (by decide)]

theorem acceptedAtOf_fundPost (j : Nat) (st : Storage) (id : Nat) :
    acceptedAtOf (fundPost j st) id = acceptedAtOf st id := by
  simp only [fundPost]
  rw [acceptedAtOf_writeWide_ne _ _ _ _ _ (by decide),
    acceptedAtOf_writeWide_ne _ _ _ _ _ (by decide)]

-- confirmPost characterisation.

theorem counterOf_confirmPost (j : Nat) (st : Storage) :
    counterOf (confirmPost j st) = counterOf st := by
  simp only [confirmPost]
  rw [counterOf_writeWide_ne _ _ _ _ (by decide), counterOf_writeWide_ne _ _ _ _ (by decide)]

theorem stateOf_confirmPost (j : Nat) (st : Storage) (id : Nat)
    (hid : id < U64_MOD) (hj : j < U64_MOD) :
    stateOf (confirmPost j st) id =
      if id = j then STATE_COMPLETED else stateOf st id := by
  simp only [confirmPost]
  rw [stateOf_writeState _ _ _ _ hid hj, stateOf_writeWide_ne _ _ _ _ _ (by decide)]
  by_cases h : id = j <;> simp [h, STATE_COMPLETED]

theorem lockedOf_confirmPost (j : Nat) (st : Storage) (id : Nat)
    (hid : id < U64_MOD) (hj : j < U64_MOD) :
    lockedOf (confirmPost j st) id =
      if id = j then 0 else lockedOf st id := by
  simp only [confirmPost]
  rw [lockedOf_writeWide_ne _ _ _ _ _ (by decide), lockedOf_writeLocked _ _ _ _ hid hj]

theorem priceOf_confirmPost (j : Nat) (st : Storage) (id : Nat) :
    priceOf (confirmPost j st) id = priceOf st id := by
  simp only [confirmPost]
  rw [priceOf_writeWide_ne _ _ _ _ _ (by decide),
    priceOf_writeWide_ne _ _ _ _ _ (by decide)]

theorem buyerOf_confirmPost (j : Nat) (st : Storage) (id : Nat) :
    buyerOf (confirmPost j st) id = buyerOf st id := rfl

-- cancelPost characterisation.

theorem counterOf_cancelPost (j : Nat) (st : Storage) :
    counterOf (cancelPost j st) = counterOf st := by
  simp only [cancelPost]
  rw [counterOf_writeWide_ne _ _ _ _ (by decide), counterOf_writeWide_ne _ _ _ _ (by decide)]

theorem stateOf_cancelPost (j : Nat) (st : Storage) (id : Nat)
    (hid : id < U64_MOD) (hj : j < U64_MOD) :
    stateOf (cancelPost j st) id =
      if id = j then STATE_CANCELLED else stateOf st id := by
  simp only [cancelPost]
  rw [stateOf_writeState _ _ _ _ hid hj, stateOf_writeWide_ne _ _ _ _ _ (by decide)]
  by_cases h : id = j <;> simp [h, STATE_CANCELLED]

theorem lockedOf_cancelPost (j : Nat) (st : Storage) (id : Nat)
    (hid : id < U64_MOD) (hj : j < U64_MOD) :
    lockedOf (cancelPost j st) id =
      if id = j then 0 else lockedOf st id := by
  simp only [cancelPost]
  rw [lockedOf_writeWide_ne _ _ _ _ _ (by decide), lockedOf_writeLocked _ _ _ _ hid hj]

theorem priceOf_cancelPost (j : Nat) (st : Storage) (id : Nat) :
    priceOf (cancelPost j st) id = priceOf st id := by
  simp only [cancelPost]
  rw [priceOf_writeWide_ne _ _ _ _ _ (by decide),
    priceOf_writeWide_ne _ _ _ _ _ (by decide)]

theorem buyerOf_cancelPost (j : Nat) (st : Storage) (id : Nat) :
    buyerOf (cancelPost j st) id = buyerOf st id := rfl

-- disputePost characterisation.

theorem counterOf_disputePost (j : Nat) (st : Storage) :
    counterOf (disputePost j st) = counterOf st := by
  simp only [disputePost]
  rw [counterOf_writeWide_ne _ _ _ _ (by decide)]

theorem stateOf_disputePost (j : Nat) (st : Storage) (id : Nat)
    (hid : id < U64_MOD) (hj : j < U64_MOD) :
    stateOf (disputePost j st) id =
      if id = j then STATE_DISPUTED else stateOf st id := by
  simp only [disputePost]
  rw [stateOf_writeState _ _ _ _ hid hj]
  by_cases h : id = j <;> simp [h, STATE_DISPUTED]

theorem lockedOf_disputePost (j : Nat) (st : Storage) (id : Nat) :
    lockedOf (disputePost j st) id = lockedOf st id := by
  simp only [disputePost]
  rw [lockedOf_writeWide_ne _ _ _ _ _ (by decide)]

theorem priceOf_disputePost (j : Nat) (st : Storage) (id : Nat) :
    priceOf (disputePost j st) id = priceOf st id := by
  simp only [disputePost]
  rw [priceOf_writeWide_ne _ _ _ _ _ (by decide)]

theorem buyerOf_disputePost (j : Nat) (st : Storage) (id : Nat) :
    buyerOf (disputePost j st) id = buyerOf st id := rfl

/-! ## The inductive invariant -/

theorem lt_u64_of_le_9899 {id : Nat} (h : id ≤ 9899) : id < U64_MOD := by
  simp only [U64_MOD]
  omega

/-- The inductive invariant maintained by every call:
`exists_le` — an order with nonzero state has id in `[1, orderCount]`;
`locked_ok` — a nonzero `locked` only with state Funded/Disputed, and then
`locked = price`;
`buyer_ok` — within the addressing design's supported range
(`orderCount ≤ 9899`), a nonexistent or Created order has a zero buyer and
an Accepted/Funded/Completed/Disputed order has a nonzero buyer. -/
structure Inv (st : Storage) : Prop where
  exists_le : ∀ id, id < U64_MOD → stateOf st id ≠ 0 → 1 ≤ id ∧ id ≤ counterOf st
  locked_ok : ∀ id, id < U64_MOD → lockedOf st id ≠ 0 →
    (stateOf st id = STATE_FUNDED ∨ stateOf st id = STATE_DISPUTED) ∧
      lockedOf st id = priceOf st id
  buyer_ok : counterOf st ≤ 9899 → ∀ id, 1 ≤ id → id ≤ 9899 →
    ((stateOf st id = 0 ∨ stateOf st id = STATE_CREATED) → buyerOf st id = 0) ∧
    ((stateOf st id = STATE_ACCEPTED ∨ stateOf st id = STATE_FUNDED ∨
      stateOf st id = STATE_COMPLETED ∨ stateOf st id = STATE_DISPUTED) →
        buyerOf st id ≠ 0)

theorem counterOf_deployed : counterOf deployed = 0 := by
  simp [deployed, counterOf, Storage.empty, writeWide, toU64]

theorem stateOf_deployed (id : Nat) : stateOf deployed id = 0 := by
  simp [deployed, stateOf, Storage.empty, writeWide, toU64]

theorem lockedOf_deployed (id : Nat) : lockedOf deployed id = 0 := by
  simp [deployed, lockedOf, Storage.empty, writeWide]

theorem buyerOf_deployed (id : Nat) : buyerOf deployed id = 0 := by
  simp [deployed, buyerOf, Storage.empty, writeWide]

theorem inv_deployed : Inv deployed := by
  constructor
  · intro id _ hstate
    exact absurd (stateOf_deployed id) hstate
  · intro id _ hlocked
    exact absurd (lockedOf_deployed id) hlocked
  · intro _ id _ _
    refine ⟨fun _ => buyerOf_deployed id, fun hs => ?_⟩
    rw [stateOf_deployed id] at hs
    simp [STATE_ACCEPTED, STATE_FUNDED, STATE_COMPLETED, STATE_DISPUTED] at hs

theorem inv_createPost (st : Storage) (h : Inv st) (c : Ctx) (p db : Nat)
    (hc : Ctx.wf c) (hp : p ≠ 0) (hcnt : counterOf st + 1 < U64_MOD) :
    Inv (createPost c p db (counterOf st + 1) st) := by
  have hoid : counterOf st + 1 < U64_MOD := hcnt
  constructor
  · intro id hid hstate
    rw [counterOf_createPost _ _ _ _ _ hoid]
    rw [stateOf_createPost _ _ _ _ _ _ hid hoid] at hstate
    by_cases he : id = counterOf st + 1
    · omega
    · rw [if_neg he] at hstate
      have := h.exists_le id hid hstate
      omega
  · intro id hid hlocked
    rw [lockedOf_createPost _ _ _ _ _ _ hid hoid] at hlocked ⊢
    by_cases he : id = counterOf st + 1
    · rw [if_pos he] at hlocked
      exact absurd rfl hlocked
    · rw [stateOf_createPost _ _ _ _ _ _ hid hoid,
        priceOf_createPost _ _ _ _ _ _ hid hoid]
      simp only [if_neg he] at hlocked ⊢
      exact h.locked_ok id hid hlocked
  · intro hcnt9899 id hid1 hid9899
    rw [counterOf_createPost _ _ _ _ _ hoid] at hcnt9899
    have hid64 : id < U64_MOD := lt_u64_of_le_9899 hid9899
    have hoid9899 : counterOf st + 1 ≤ 9899 := hcnt9899
    rw [stateOf_createPost _ _ _ _ _ _ hid64 hoid,
      buyerOf_createPost _ _ _ _ _ _ hid9899 hoid9899]
    by_cases he : id = counterOf st + 1
    · have hpre : stateOf st id = 0 := by
        by_contra hne
        have := h.exists_le id hid64 hne
        omega
      have hb := (h.buyer_ok (by omega) id hid1 hid9899).1 (Or.inl hpre)
      rw [if_pos he]
      refine ⟨fun _ => hb, fun hs => ?_⟩
      simp [STATE_CREATED, STATE_ACCEPTED, STATE_FUNDED, STATE_COMPLETED,
        STATE_DISPUTED] at hs
    · simp only [if_neg he]
      exact h.buyer_ok (by omega) id hid1 hid9899

theorem inv_acceptPost (st : Storage) (h : Inv st) (c : Ctx) (j : Nat)
    (hc : Ctx.wf c) (hj : j < U64_MOD) (hguard : stateOf st j = STATE_CREATED) :
    Inv (acceptPost c j st) := by
  have hjne : stateOf st j ≠ 0 := by
    rw [hguard]
    simp [STATE_CREATED]
  constructor
  · intro id hid hstate
    rw [counterOf_acceptPost]
    rw [stateOf_acceptPost _ _ _ _ hid hj] at hstate
    by_cases he : id = j
    · subst he
      exact h.exists_le id hid hjne
    · rw [if_neg he] at hstate
      exact h.exists_le id hid hstate
  · intro id hid hlocked
    rw [lockedOf_acceptPost] at hlocked ⊢
    rw [stateOf_acceptPost _ _ _ _ hid hj, priceOf_acceptPost]
    by_cases he : id = j
    · exfalso
      have h2 := (h.locked_ok id hid hlocked).1
      rw [he, hguard] at h2
      simp [STATE_CREATED, STATE_FUNDED, STATE_DISPUTED] at h2
    · rw [if_neg he]
      exact h.locked_ok id hid hlocked
  · intro hcnt id hid1 hid9899
    rw [counterOf_acceptPost] at hcnt
    have hid64 := lt_u64_of_le_9899 hid9899
    have hj9899 : j ≤ 9899 := by
      have := h.exists_le j hj hjne
      omega
    rw [stateOf_acceptPost _ _ _ _ hid64 hj, buyerOf_acceptPost _ _ _ _ hid9899 hj9899]
    by_cases he : id = j
    · simp only [if_pos he]
      refine ⟨fun hs => ?_, fun _ => hc.1⟩
      simp [STATE_ACCEPTED, STATE_CREATED] at hs
    · simp only [if_neg he]
      exact h.buyer_ok hcnt id hid1 hid9899

theorem inv_fundPost (st : Storage) (h : Inv st) (j : Nat)
    (hj : j < U64_MOD) (hguard : stateOf st j = STATE_ACCEPTED) :
    Inv (fundPost j st) := by
  have hjne : stateOf st j ≠ 0 := by
    rw [hguard]
    simp [STATE_ACCEPTED]
  constructor
  · intro id hid hstate
    rw [counterOf_fundPost]
    rw [stateOf_fundPost _ _ _ hid hj] at hstate
    by_cases he : id = j
    · subst he
      exact h.exists_le id hid hjne
    · rw [if_neg he] at hstate
      exact h.exists_le id hid hstate
  · intro id hid hlocked
    rw [lockedOf_fundPost _ _ _ hid hj] at hlocked ⊢
    rw [stateOf_fundPost _ _ _ hid hj, priceOf_fundPost]
    by_cases he : id = j
    · simp only [if_pos he]
      refine ⟨Or.inl ?_, by rw [he]⟩
      simp
    · simp only [if_neg he] at hlocked ⊢
      exact h.locked_ok id hid hlocked
  · intro hcnt id hid1 hid9899
    rw [counterOf_fundPost] at hcnt
    have hid64 := lt_u64_of_le_9899 hid9899
    rw [stateOf_fundPost _ _ _ hid64 hj, buyerOf_fundPost]
    by_cases he : id = j
    · rw [if_pos he]
      have hb := (h.buyer_ok hcnt id hid1 hid9899).2 (by rw [he, hguard]; exact Or.inl rfl)
      refine ⟨fun hs => ?_, fun _ => hb⟩
      simp [STATE_FUNDED, STATE_CREATED] at hs
    · simp only [if_neg he]
      exact h.buyer_ok hcnt id hid1 hid9899

theorem inv_confirmPost (st : Storage) (h : Inv st) (j : Nat)
    (hj : j < U64_MOD) (hguard : stateOf st j = STATE_FUNDED) :
    Inv (confirmPost j st) := by
  have hjne : stateOf st j ≠ 0 := by
    rw [hguard]
    simp [STATE_FUNDED]
  constructor
  · intro id hid hstate
    rw [counterOf_confirmPost]
    rw [stateOf_confirmPost _ _ _ hid hj] at hstate
    by_cases he : id = j
    · subst he
      exact h.exists_le id hid hjne
    · rw [if_neg he] at hstate
      exact h.exists_le id hid hstate
  · intro id hid hlocked
    rw [lockedOf_confirmPost _ _ _ hid hj] at hlocked ⊢
    rw [stateOf_confirmPost _ _ _ hid hj, priceOf_confirmPost]
    by_cases he : id = j
    · rw [if_pos he] at hlocked
      exact absurd rfl hlocked
    · simp only [if_neg he] at hlocked ⊢
      exact h.locked_ok id hid hlocked
  · intro hcnt id hid1 hid9899
    rw [counterOf_confirmPost] at hcnt
    have hid64 := lt_u64_of_le_9899 hid9899
    rw [stateOf_confirmPost _ _ _ hid64 hj, buyerOf_confirmPost]
    by_cases he : id = j
    · rw [if_pos he]
      have hb := (h.buyer_ok hcnt id hid1 hid9899).2
        (by rw [he, hguard]; exact Or.inr (Or.inl rfl))
      refine ⟨fun hs => ?_, fun _ => hb⟩
      simp [STATE_COMPLETED, STATE_CREATED] at hs
    · simp only [if_neg he]
      exact h.buyer_ok hcnt id hid1 hid9899

theorem inv_cancelPost (st : Storage) (h : Inv st) (j : Nat)
    (hj : j < U64_MOD) (hguard : stateOf st j ≠ 0) :
    Inv (cancelPost j st) := by
  constructor
  · intro id hid hstate
    rw [counterOf_cancelPost]
    rw [stateOf_cancelPost _ _ _ hid hj] at hstate
    by_cases he : id = j
    · subst he
      exact h.exists_le id hid hguard
    · rw [if_neg he] at hstate
      exact h.exists_le id hid hstate
  · intro id hid hlocked
    rw [lockedOf_cancelPost _ _ _ hid hj] at hlocked ⊢
    rw [stateOf_cancelPost _ _ _ hid hj, priceOf_cancelPost]
    by_cases he : id = j
    · rw [if_pos he] at hlocked
      exact absurd rfl hlocked
    · simp only [if_neg he] at hlocked ⊢
      exact h.locked_ok id hid hlocked
  · intro hcnt id hid1 hid9899
    rw [counterOf_cancelPost] at hcnt
    have hid64 := lt_u64_of_le_9899 hid9899
    rw [stateOf_cancelPost _ _ _ hid64 hj, buyerOf_cancelPost]
    by_cases he : id = j
    · rw [if_pos he]
      refine ⟨fun hs => ?_, fun hs => ?_⟩
      · simp [STATE_CANCELLED, STATE_CREATED] at hs
      · simp [STATE_CANCELLED, STATE_ACCEPTED, STATE_FUNDED, STATE_COMPLETED,
          STATE_DISPUTED] at hs
    · simp only [if_neg he]
      exact h.buyer_ok hcnt id hid1 hid9899

theorem inv_disputePost (st : Storage) (h : Inv st) (j : Nat)
    (hj : j < U64_MOD) (hguard : stateOf st j = STATE_FUNDED) :
    Inv (disputePost j st) := by
  have hjne : stateOf st j ≠ 0 := by
    rw [hguard]
    simp [STATE_FUNDED]
  constructor
  · intro id hid hstate
    rw [counterOf_disputePost]
    rw [stateOf_disputePost _ _ _ hid hj] at hstate
    by_cases he : id = j
    · subst he
      exact h.exists_le id hid hjne
    · rw [if_neg he] at hstate
      exact h.exists_le id hid hstate
  · intro id hid hlocked
    rw [lockedOf_disputePost] at hlocked ⊢
    rw [stateOf_disputePost _ _ _ hid hj, priceOf_disputePost]
    by_cases he : id = j
    · rw [if_pos he]
      have h2 := h.locked_ok id hid hlocked
      exact ⟨Or.inr rfl, h2.2⟩
    · simp only [if_neg he]
      exact h.locked_ok id hid hlocked
  · intro hcnt id hid1 hid9899
    rw [counterOf_disputePost] at hcnt
    have hid64 := lt_u64_of_le_9899 hid9899
    rw [stateOf_disputePost _ _ _ hid64 hj, buyerOf_disputePost]
    by_cases he : id = j
    · rw [if_pos he]
      have hb := (h.buyer_ok hcnt id hid1 hid9899).2
        (by rw [he, hguard]; exact Or.inr (Or.inl rfl))
      refine ⟨fun hs => ?_, fun _ => hb⟩
      simp [STATE_DISPUTED, STATE_CREATED] at hs
    · simp only [if_neg he]
      exact h.buyer_ok hcnt id hid1 hid9899

theorem inv_call (st : Storage) (h : Inv st) (c : Ctx) (op : Op)
    (hc : Ctx.wf c) (hop : Op.wf op) : Inv (call op c st).1 := by
  cases op with
  | create p db =>
    simp only [call, run, createOrder_eq]
    split_ifs with h1 h2 h3 h4
    · exact h
    · exact h
    · exact h
    · exact h
    · exact inv_createPost st h c p db hc h1 (by omega)
  | accept id =>
    simp only [call, run, acceptOrder]
    split_ifs with h1 h2
    · exact inv_acceptPost st h c id hc hop h1
    · exact h
    · exact h
  | fund id =>
    simp only [call, run, fundOrder]
    split_ifs with h1 h2
    · exact inv_fundPost st h id hop h1
    · exact h
    · exact h
  | confirm id =>
    simp only [call, run, confirmCompletion]
    split_ifs with h1 h2
    · exact inv_confirmPost st h id hop h1
    · exact h
    · exact h
  | cancel id =>
    simp only [call, run, cancelOrder]
    split_ifs with h1 h2
    · refine inv_cancelPost st h id hop ?_
      rcases h1 with h1 | h1 | h1 | h1 <;> rw [h1] <;>
        simp [STATE_CREATED, STATE_ACCEPTED, STATE_FUNDED, STATE_DISPUTED]
    · exact h
    · exact h
  | dispute id =>
    simp only [call, run, openDispute]
    split_ifs with h1 h2
    · exact inv_disputePost st h id hop h1
    · exact h
    · exact h

theorem inv_reachable (st : Storage) (h : Reachable st) : Inv st := by
  induction h with
  | refl => exact inv_deployed
  | tail op c hsteps hc hop ih => exact inv_call _ ih _ _ hc hop

theorem reachable_steps {st st' : Storage} (h : Reachable st) (hs : Steps st st') :
    Reachable st' := by
  induction hs with
  | refl => exact h
  | tail op c hsteps hc hop ih => exact Steps.tail op c ih hc hop

theorem inv_steps {st st' : Storage} (hs : Steps st st') (h : Inv st) : Inv st' := by
  induction hs with
  | refl => exact h
  | tail op c hsteps hc hop ih => exact inv_call _ ih _ _ hc hop

/-! ## The order counter is monotone and increments exactly on creation -/

theorem counterOf_call_create (c : Ctx) (p db : Nat) (st : Storage)
    (hok : (call (.create p db) c st).2.isSome = true) :
    counterOf (call (.create p db) c st).1 = counterOf st + 1 ∧
      (call (.create p db) c st).2 = some (counterOf st + 1) := by
  simp only [call, run, createOrder_eq] at hok ⊢
  split_ifs at hok ⊢ with h1 h2 h3 h4
  · exact absurd hok (by simp)
  · exact absurd hok (by simp)
  · exact absurd hok (by simp)
  · exact absurd hok (by simp)
  · exact ⟨counterOf_createPost _ _ _ _ _ (by omega), rfl⟩

theorem counterOf_le_call (op : Op) (c : Ctx) (st : Storage) :
    counterOf st ≤ counterOf (call op c st).1 := by
  cases op with
  | create p db =>
    simp only [call, run, createOrder_eq]
    split_ifs with h1 h2 h3 h4
    · exact le_refl _
    · exact le_refl _
    · exact le_refl _
    · exact le_refl _
    · rw [counterOf_createPost _ _ _ _ _ (by omega)]
      omega
  | accept id =>
    simp only [call, run, acceptOrder]
    split_ifs with h1 h2
    · rw [counterOf_acceptPost]
    · exact le_refl _
    · exact le_refl _
  | fund id =>
    simp only [call, run, fundOrder]
    split_ifs with h1 h2
    · rw [counterOf_fundPost]
    · exact le_refl _
    · exact le_refl _
  | confirm id =>
    simp only [call, run, confirmCompletion]
    split_ifs with h1 h2
    · rw [counterOf_confirmPost]
    · exact le_refl _
    · exact le_refl _
  | cancel id =>
    simp only [call, run, cancelOrder]
    split_ifs with h1 h2
    · rw [counterOf_cancelPost]
    · exact le_refl _
    · exact le_refl _
  | dispute id =>
    simp only [call, run, openDispute]
    split_ifs with h1 h2
    · rw [counterOf_disputePost]
    · exact le_refl _
    · exact le_refl _

theorem counterOf_le_steps {st st' : Storage} (hs : Steps st st') :
    counterOf st ≤ counterOf st' := by
  induction hs with
  | refl => exact le_refl _
  | tail op c hsteps hc hop ih => exact le_trans ih (counterOf_le_call op c _)

/-! ## Terminal states are preserved by every call -/

theorem stateOf_call_of_terminal (st : Storage) (hInv : Inv st) (id : Nat)
    (hid : id < U64_MOD)
    (hterm : stateOf st id = STATE_COMPLETED ∨ stateOf st id = STATE_CANCELLED)
    (op : Op) (c : Ctx) (hop : Op.wf op) :
    stateOf (call op c st).1 id = stateOf st id := by
  have hne : stateOf st id ≠ 0 := by
    rcases hterm with h | h <;> rw [h] <;> simp [STATE_COMPLETED, STATE_CANCELLED]
  cases op with
  | create p db =>
    simp only [call, run, createOrder_eq]
    split_ifs with h1 h2 h3 h4
    · rfl
    · rfl
    · rfl
    · rfl
    · rw [stateOf_createPost _ _ _ _ _ _ hid (by omega)]
      have := hInv.exists_le id hid hne
      rw [if_neg (by omega)]
  | accept j =>
    simp only [call, run, acceptOrder]
    split_ifs with h1 h2
    · rw [stateOf_acceptPost _ _ _ _ hid hop, if_neg]
      intro he
      rw [← he] at h1
      rw [h1] at hterm
      simp [STATE_CREATED, STATE_COMPLETED, STATE_CANCELLED] at hterm
    · rfl
    · rfl
  | fund j =>
    simp only [call, run, fundOrder]
    split_ifs with h1 h2
    · rw [stateOf_fundPost _ _ _ hid hop, if_neg]
      intro he
      rw [← he] at h1
      rw [h1] at hterm
      simp [STATE_ACCEPTED, STATE_COMPLETED, STATE_CANCELLED] at hterm
    · rfl
    · rfl
  | confirm j =>
    simp only [call, run, confirmCompletion]
    split_ifs with h1 h2
    · rw [stateOf_confirmPost _ _ _ hid hop, if_neg]
      intro he
      rw [← he] at h1
      rw [h1] at hterm
      simp [STATE_FUNDED, STATE_COMPLETED, STATE_CANCELLED] at hterm
    · rfl
    · rfl
  | cancel j =>
    simp only [call, run, cancelOrder]
    split_ifs with h1 h2
    · rw [stateOf_cancelPost _ _ _ hid hop, if_neg]
      intro he
      rw [← he] at h1
      rcases hterm with h | h <;> rw [h] at h1 <;>
        simp [STATE_CREATED, STATE_ACCEPTED, STATE_FUNDED, STATE_DISPUTED,
          STATE_COMPLETED, STATE_CANCELLED] at h1
    · rfl
    · rfl
  | dispute j =>
    simp only [call, run, openDispute]
    split_ifs with h1 h2
    · rw [stateOf_disputePost _ _ _ hid hop, if_neg]
      intro he
      rw [← he] at h1
      rw [h1] at hterm
      simp [STATE_FUNDED, STATE_COMPLETED, STATE_CANCELLED] at hterm
    · rfl
    · rfl

theorem stateOf_steps_of_terminal {st st' : Storage} (hs : Steps st st')
    (hInv : Inv st) (id : Nat) (hid : id < U64_MOD)
    (hterm : stateOf st id = STATE_COMPLETED ∨ stateOf st id = STATE_CANCELLED) :
    stateOf st' id = stateOf st id := by
  induction hs with
  | refl => rfl
  | tail op c hsteps hc hop ih =>
    rw [stateOf_call_of_terminal _ (inv_steps hsteps hInv) id hid (by rw [ih]; exact hterm)
      op c hop]
    exact ih

/-! ## The aggregate query computes the sum described by the spec -/

/-- Spec-side description of the scan: the list of `locked` values of orders
`1..n` whose state is `Funded` or `Disputed`. -/
def lockedValues (st : Storage) (n : Nat) : List Nat :=
  ((List.range' 1 n).filter fun i =>
    decide (stateOf st i = STATE_FUNDED) || decide (stateOf st i = STATE_DISPUTED)).map
    (lockedOf st)

/-- Spec-side total: the plain sum of those locked values. -/
def totalLockedSpec (st : Storage) (n : Nat) : Nat := (lockedValues st n).sum

theorem range'_one_concat (n : Nat) :
    List.range' 1 (n + 1) = List.range' 1 n ++ [n + 1] := by
  rw [List.range'_concat]
  norm_num [Nat.add_comm]

theorem totalLockedSpec_succ (st : Storage) (n : Nat) :
    totalLockedSpec st (n + 1) =
      totalLockedSpec st n +
        (if stateOf st (n + 1) = STATE_FUNDED ∨ stateOf st (n + 1) = STATE_DISPUTED
          then lockedOf st (n + 1) else 0) := by
  unfold totalLockedSpec lockedValues
  rw [range'_one_concat, List.filter_append, List.map_append, List.sum_append]
  by_cases h : stateOf st (n + 1) = STATE_FUNDED ∨ stateOf st (n + 1) = STATE_DISPUTED
  · rw [if_pos h]
    rcases h with h | h <;> simp [h]
  · rw [if_neg h]
    push_neg at h
    simp [h.1, h.2]

theorem lockedSum_eq (st : Storage) (n : Nat) :
    lockedSum st n =
      if totalLockedSpec st n < U256_MOD then .ok (totalLockedSpec st n)
      else .error "SafeMath: addition overflow" := by
  induction n with
  | zero =>
    rw [lockedSum, if_pos]
    · rfl
    · show (0 : Nat) < U256_MOD
      simp [U256_MOD]
  | succ n ih =>
    rw [lockedSum, ih, totalLockedSpec_succ]
    by_cases hprev : totalLockedSpec st n < U256_MOD
    · rw [if_pos hprev]
      by_cases hesc : stateOf st (n + 1) = STATE_FUNDED ∨ stateOf st (n + 1) = STATE_DISPUTED
      · simp only [if_pos hesc]
        by_cases hov : U256_MOD ≤ totalLockedSpec st n + lockedOf st (n + 1)
        · rw [if_pos hov, if_neg (by omega)]
        · rw [if_neg hov, if_pos (by omega)]
      · simp only [if_neg hesc]
        rw [if_pos (by omega)]
        simp
    · rw [if_neg hprev]
      by_cases hesc : stateOf st (n + 1) = STATE_FUNDED ∨ stateOf st (n + 1) = STATE_DISPUTED
      · simp only [if_pos hesc]
        rw [if_neg (by omega)]
      · simp only [if_neg hesc]
        rw [if_neg (by omega)]

/-! ## Failure helpers -/

theorem accept_fails_of_state (c : Ctx) (id : Nat) (st : Storage)
    (h : stateOf st id ≠ STATE_CREATED) : isOk (run (.accept id) c st) = false := by
  simp only [run, acceptOrder]
  rw [if_neg h]
  rfl

theorem fund_fails_of_state (c : Ctx) (id : Nat) (st : Storage)
    (h : stateOf st id ≠ STATE_ACCEPTED) : isOk (run (.fund id) c st) = false := by
  simp only [run, fundOrder]
  rw [if_neg h]
  rfl

theorem confirm_fails_of_state (c : Ctx) (id : Nat) (st : Storage)
    (h : stateOf st id ≠ STATE_FUNDED) : isOk (run (.confirm id) c st) = false := by
  simp only [run, confirmCompletion]
  rw [if_neg h]
  rfl

theorem cancel_fails_of_state (c : Ctx) (id : Nat) (st : Storage)
    (h : ¬(stateOf st id = STATE_CREATED ∨ stateOf st id = STATE_ACCEPTED ∨
      stateOf st id = STATE_FUNDED ∨ stateOf st id = STATE_DISPUTED)) :
    isOk (run (.cancel id) c st) = false := by
  simp only [run, cancelOrder]
  rw [if_neg h]
  rfl

theorem dispute_fails_of_state (c : Ctx) (id : Nat) (st : Storage)
    (h : stateOf st id ≠ STATE_FUNDED) : isOk (run (.dispute id) c st) = false := by
  simp only [run, openDispute]
  rw [if_neg h]
  rfl

/-! ## A concrete execution trace used as witness material -/

/-- A seller at address 7, acting at height 100. -/
def cSeller : Ctx := ⟨7, 100⟩

/-- A buyer at address 8, acting at height 100. -/
def cBuyer : Ctx := ⟨8, 100⟩

/-- Order 1 created (price 5, deadlineBlocks 6). -/
def stC : Storage := (call (.create 5 6) cSeller deployed).1

/-- Order 1 accepted by the buyer. -/
def stA : Storage := (call (.accept 1) cBuyer stC).1

/-- Order 1 funded by the buyer. -/
def stF : Storage := (call (.fund 1) cBuyer stA).1

/-- Order 1 cancelled by the seller straight from Created. -/
def stCX : Storage := (call (.cancel 1) cSeller stC).1

theorem reachable_stC : Reachable stC :=
  Steps.tail (.create 5 6) cSeller (Steps.refl deployed)
    ⟨by decide, by decide⟩ ⟨by decide, by decide⟩

theorem reachable_stA : Reachable stA :=
  Steps.tail (.accept 1) cBuyer reachable_stC ⟨by decide, by decide⟩
    (show (1 : Nat) < U64_MOD by decide)

theorem reachable_stF : Reachable stF :=
  Steps.tail (.fund 1) cBuyer reachable_stA ⟨by decide, by decide⟩
    (show (1 : Nat) < U64_MOD by decide)

theorem reachable_stCX : Reachable stCX :=
  Steps.tail (.cancel 1) cSeller reachable_stC ⟨by decide, by decide⟩
    (show (1 : Nat) < U64_MOD by decide)

/-! ## Injectivity of the addressing layer -/

theorem decodeBE_subPtr {id : Nat} (hid : id < U64_MOD) :
    decodeBE ((subPtr id).drop 24) = id := by
  simp only [subPtr, decodeBE, List.drop, List.foldl]
  simp only [U64_MOD] at hid
  omega

theorem subPtr_take_24 (id : Nat) : (subPtr id).take 24 = List.replicate 24 0 := by
  simp [subPtr, List.take, List.replicate]

theorem subPtr_length (id : Nat) : (subPtr id).length = 32 := by
  simp [subPtr]

/-- Left inverse of `resolve` on the supported range: recover the field
reference from the storage key. -/
def unresolve : StorageKey → Option FieldRef
  | .wide sel sub =>
    if sel = PTR_ORDER_COUNT then some .orderCount
    else if sel = PTR_PRICE then some (.price (decodeBE (sub.drop 24)))
    else if sel = PTR_LOCKED then some (.locked (decodeBE (sub.drop 24)))
    else if sel = PTR_STATE then some (.state (decodeBE (sub.drop 24)))
    else if sel = PTR_DEADLINE then some (.deadline (decodeBE (sub.drop 24)))
    else if sel = PTR_ACCEPTED_AT then some (.acceptedAt (decodeBE (sub.drop 24)))
    else none
  | .narrow sel =>
    if PTR_SELLER_BASE ≤ sel ∧ sel < PTR_BUYER_BASE then some (.seller (sel - PTR_SELLER_BASE))
    else if PTR_BUYER_BASE ≤ sel then some (.buyer (sel - PTR_BUYER_BASE))
    else none

theorem unresolve_resolve (r : FieldRef) (h : r.wf) : unresolve (resolve r) = some r := by
  cases r with
  | orderCount => rfl
  | price id =>
    have hb : 1 ≤ id ∧ id ≤ 9899 := h
    simp [resolve, unresolve, PTR_ORDER_COUNT, PTR_PRICE,
      decodeBE_subPtr (lt_u64_of_le_9899 hb.2)]
  | locked id =>
    have hb : 1 ≤ id ∧ id ≤ 9899 := h
    simp [resolve, unresolve, PTR_ORDER_COUNT, PTR_PRICE, PTR_LOCKED,
      decodeBE_subPtr (lt_u64_of_le_9899 hb.2)]
  | state id =>
    have hb : 1 ≤ id ∧ id ≤ 9899 := h
    simp [resolve, unresolve, PTR_ORDER_COUNT, PTR_PRICE, PTR_LOCKED, PTR_STATE,
      decodeBE_subPtr (lt_u64_of_le_9899 hb.2)]
  | deadline id =>
    have hb : 1 ≤ id ∧ id ≤ 9899 := h
    simp [resolve, unresolve, PTR_ORDER_COUNT, PTR_PRICE, PTR_LOCKED, PTR_STATE,
      PTR_DEADLINE, decodeBE_subPtr (lt_u64_of_le_9899 hb.2)]
  | acceptedAt id =>
    have hb : 1 ≤ id ∧ id ≤ 9899 := h
    simp [resolve, unresolve, PTR_ORDER_COUNT, PTR_PRICE, PTR_LOCKED, PTR_STATE,
      PTR_DEADLINE, PTR_ACCEPTED_AT, decodeBE_subPtr (lt_u64_of_le_9899 hb.2)]
  | seller id =>
    have hb : 1 ≤ id ∧ id ≤ 9899 := h
    simp only [resolve, unresolve, PTR_SELLER_BASE, PTR_BUYER_BASE]
    have hm : (100 + id) % 65536 = 100 + id := Nat.mod_eq_of_lt (by omega)
    rw [hm, if_pos (by omega)]
    simp only [Option.some.injEq, FieldRef.seller.injEq]
    omega
  | buyer id =>
    have hb : 1 ≤ id ∧ id ≤ 9899 := h
    simp only [resolve, unresolve, PTR_SELLER_BASE, PTR_BUYER_BASE]
    have hm : (10000 + id) % 65536 = 10000 + id := Nat.mod_eq_of_lt (by omega)
    rw [hm, if_neg (by omega), if_pos (by omega)]
    simp only [Option.some.injEq, FieldRef.buyer.injEq]
    omega

/-! ## Claim theorems -/

/-- C1: in every reachable storage, an order's `locked` amount is nonzero
only when its state is Funded or Disputed, and whenever nonzero it equals the
order's `price`; the invariant is preserved because `Reachable` closes over
every operation (createOrder writes locked = 0, fundOrder sets locked = price
when moving to Funded, confirmCompletion and cancelOrder zero it when leaving
Funded/Disputed, openDispute leaves it unchanged). -/
theorem escrow_claim_C1 (st : Storage) (h : Reachable st) (id : Nat)
    (hid : id < U64_MOD) (hne : lockedOf st id ≠ 0) :
    (stateOf st id = STATE_FUNDED ∨ stateOf st id = STATE_DISPUTED) ∧
      lockedOf st id = priceOf st id :=
  (inv_reachable st h).locked_ok id hid hne

theorem escrow_claim_C1_witness :
    lockedOf stF 1 ≠ 0 ∧
      ((stateOf stF 1 = STATE_FUNDED ∨ stateOf stF 1 = STATE_DISPUTED) ∧
        lockedOf stF 1 = priceOf stF 1) :=
  ⟨by decide, escrow_claim_C1 stF reachable_stF 1 (by decide) (by decide)⟩

/-- C2: `getEscrowStats` is read-only (its type consumes the storage without
producing a new one) and returns `(contractBalance, totalLocked, orderCount)`
where `totalLocked` is the checked 256-bit sum of the `locked` values of every
order `1..orderCount` whose state is Funded or Disputed, `contractBalance` is
that same sum returned twice, and `orderCount` is the stored counter; if the
sum overflows 256 bits the call aborts. -/
theorem escrow_claim_C2 (st : Storage) :
    getEscrowStats st =
      if totalLockedSpec st (counterOf st) < U256_MOD then
        Except.ok (totalLockedSpec st (counterOf st), totalLockedSpec st (counterOf st),
          counterOf st)
      else Except.error "SafeMath: addition overflow" := by
  unfold getEscrowStats
  rw [lockedSum_eq]
  by_cases h : totalLockedSpec st (counterOf st) < U256_MOD
  · rw [if_pos h, if_pos h]
  · rw [if_neg h, if_neg h]

/-- C3: the storage-key mapping is a pure function, injective over
`(fieldKind, orderId)` pairs in the supported range `[1, 9899]`: each wide
field owns a distinct selector with the order id encoded big-endian in the
low 8 bytes of the 32-byte sub-key (upper 24 bytes zero), seller maps to
narrow selector `100 + orderId` and buyer to `10000 + orderId`, so no two
distinct field references resolve to the same storage slot. -/
theorem escrow_claim_C3 (r₁ r₂ : FieldRef) (h₁ : r₁.wf) (h₂ : r₂.wf)
    (heq : resolve r₁ = resolve r₂) :
    r₁ = r₂ ∧ (subPtr r₁.idOf).length = 32 ∧
      (subPtr r₁.idOf).take 24 = List.replicate 24 0 ∧
      decodeBE ((subPtr r₁.idOf).drop 24) = r₁.idOf := by
  have hinj : r₁ = r₂ := by
    have h := unresolve_resolve r₁ h₁
    rw [heq, unresolve_resolve r₂ h₂] at h
    exact (Option.some.inj h).symm
  have hlt : r₁.idOf < U64_MOD := by
    cases r₁ with
    | orderCount => decide
    | price id | locked id | state id | deadline id | acceptedAt id
    | seller id | buyer id =>
      have hb : 1 ≤ FieldRef.idOf _ ∧ FieldRef.idOf _ ≤ 9899 := h₁
      exact lt_u64_of_le_9899 hb.2
  exact ⟨hinj, subPtr_length _, subPtr_take_24 _, decodeBE_subPtr hlt⟩

theorem escrow_claim_C3_witness :
    FieldRef.wf (FieldRef.price 5) ∧ FieldRef.price 5 = FieldRef.price 5 :=
  ⟨⟨by decide, by decide⟩,
    (escrow_claim_C3 (FieldRef.price 5) (FieldRef.price 5) ⟨by decide, by decide⟩
      ⟨by decide, by decide⟩ rfl).1⟩

/-- C4: every mutating operation that aborts — violated precondition, failed
authorization, or arithmetic overflow — fails the whole call with no partial
writes observable: the storage after the failed call equals the storage
before it (the host's call semantics revert the writes of an aborted call). -/
theorem escrow_claim_C4 (op : Op) (c : Ctx) (st : Storage)
    (hfail : isOk (run op c st) = false) : (call op c st).1 = st := by
  unfold call
  cases hrun : run op c st with
  | ok v =>
    rw [hrun] at hfail
    simp [isOk] at hfail
  | error e => rfl

theorem escrow_claim_C4_witness :
    isOk (run (.accept 1) cBuyer deployed) = false ∧
      (call (.accept 1) cBuyer deployed).1 = deployed :=
  ⟨by decide, escrow_claim_C4 (.accept 1) cBuyer deployed (by decide)⟩

/-- C5: Completed and Cancelled are terminal — from any reachable storage in
which an order is Completed or Cancelled, along every sequence of well-formed
calls the order's state never changes, and every acceptOrder, fundOrder,
confirmCompletion, cancelOrder, openDispute call on that order fails. -/
theorem escrow_claim_C5 (st : Storage) (h : Reachable st) (id : Nat)
    (hid : id < U64_MOD)
    (hterm : stateOf st id = STATE_COMPLETED ∨ stateOf st id = STATE_CANCELLED) :
    ∀ st', Steps st st' →
      stateOf st' id = stateOf st id ∧
      ∀ c : Ctx,
        isOk (run (.accept id) c st') = false ∧
        isOk (run (.fund id) c st') = false ∧
        isOk (run (.confirm id) c st') = false ∧
        isOk (run (.cancel id) c st') = false ∧
        isOk (run (.dispute id) c st') = false := by
  intro st' hs
  have hpres := stateOf_steps_of_terminal hs (inv_reachable st h) id hid hterm
  have hterm' : stateOf st' id = STATE_COMPLETED ∨ stateOf st' id = STATE_CANCELLED := by
    rw [hpres]
    exact hterm
  refine ⟨hpres, fun c => ⟨?_, ?_, ?_, ?_, ?_⟩⟩
  · exact accept_fails_of_state c id st' (by rcases hterm' with h' | h' <;> rw [h'] <;> decide)
  · exact fund_fails_of_state c id st' (by rcases hterm' with h' | h' <;> rw [h'] <;> decide)
  · exact confirm_fails_of_state c id st' (by rcases hterm' with h' | h' <;> rw [h'] <;> decide)
  · exact cancel_fails_of_state c id st' (by rcases hterm' with h' | h' <;> rw [h'] <;> decide)
  · exact dispute_fails_of_state c id st' (by rcases hterm' with h' | h' <;> rw [h'] <;> decide)

theorem escrow_claim_C5_witness :
    stateOf stCX 1 = STATE_CANCELLED ∧ isOk (run (.accept 1) cBuyer stCX) = false :=
  ⟨by decide,
    ((escrow_claim_C5 stCX reachable_stCX 1 (by decide) (Or.inr (by decide))
      stCX (Steps.refl stCX)).2 cBuyer).1⟩

/-- C10: for every order id that does not correspond to a created order
(id = 0 or id above the current counter) in a reachable storage, the stored
state reads as the zero default, so every mutating operation on it —
acceptOrder, fundOrder, confirmCompletion, cancelOrder, openDispute — aborts,
and a nonexistent order can only come into being through createOrder. -/
theorem escrow_claim_C10 (st : Storage) (h : Reachable st) (id : Nat)
    (hid : id < U64_MOD) (hnon : id = 0 ∨ counterOf st < id) :
    stateOf st id = 0 ∧
    ∀ c : Ctx,
      isOk (run (.accept id) c st) = false ∧
      isOk (run (.fund id) c st) = false ∧
      isOk (run (.confirm id) c st) = false ∧
      isOk (run (.cancel id) c st) = false ∧
      isOk (run (.dispute id) c st) = false := by
  have hstate : stateOf st id = 0 := by
    by_contra hne
    have := (inv_reachable st h).exists_le id hid hne
    omega
  refine ⟨hstate, fun c => ⟨?_, ?_, ?_, ?_, ?_⟩⟩
  · exact accept_fails_of_state c id st (by rw [hstate]; decide)
  · exact fund_fails_of_state c id st (by rw [hstate]; decide)
  · exact confirm_fails_of_state c id st (by rw [hstate]; decide)
  · exact cancel_fails_of_state c id st (by rw [hstate]; decide)
  · exact dispute_fails_of_state c id st (by rw [hstate]; decide)

theorem escrow_claim_C10_witness :
    counterOf deployed < 1 ∧ stateOf deployed 1 = 0 ∧
      isOk (run (.fund 1) cBuyer deployed) = false := by
  have h := escrow_claim_C10 deployed (Steps.refl deployed) 1 (by decide) (Or.inr (by decide))
  exact ⟨by decide, h.1, (h.2 cBuyer).2.1⟩

/-- C6 counterexample: the claimed "buyer is zero iff state is Created" fails
on the code — cancelling order 1 straight from Created (allowed to the
seller) reaches a storage where the order is Cancelled yet its buyer is still
the zero address. -/
theorem escrow_claim_C6_counterexample :
    Reachable stCX ∧ stateOf stCX 1 = STATE_CANCELLED ∧
      stateOf stCX 1 ≠ STATE_CREATED ∧ buyerOf stCX 1 = 0 :=
  ⟨reachable_stCX, by decide, by decide, by decide⟩

/-- C6 amended: in every reachable storage whose order counter is within the
addressing design's supported range (`orderCount ≤ 9899`), an order in state
Created has a zero buyer, and an order in state Accepted, Funded, Completed
or Disputed has a nonzero buyer.  (The original biconditional fails only for
Cancelled: an order cancelled before acceptance keeps a zero buyer; and
beyond 9899 orders the seller slots alias the buyer slots.) -/
theorem escrow_claim_C6 (st : Storage) (h : Reachable st)
    (hcnt : counterOf st ≤ 9899) (id : Nat) (hid1 : 1 ≤ id) (hid2 : id ≤ 9899) :
    (stateOf st id = STATE_CREATED → buyerOf st id = 0) ∧
    ((stateOf st id = STATE_ACCEPTED ∨ stateOf st id = STATE_FUNDED ∨
      stateOf st id = STATE_COMPLETED ∨ stateOf st id = STATE_DISPUTED) →
      buyerOf st id ≠ 0) := by
  have hb := (inv_reachable st h).buyer_ok hcnt id hid1 hid2
  exact ⟨fun hs => hb.1 (Or.inr hs), hb.2⟩

theorem escrow_claim_C6_witness :
    counterOf stA ≤ 9899 ∧ stateOf stA 1 = STATE_ACCEPTED ∧ buyerOf stA 1 ≠ 0 :=
  ⟨by decide, by decide,
    (escrow_claim_C6 stA reachable_stA (by decide) 1 (by decide) (by decide)).2
      (Or.inl (by decide))⟩

/-- C7: a successful `createOrder` returns an id equal to the stored counter
immediately after the call, namely the previous counter plus one (so the
first creation returns 1), and across any later sequence of calls a further
successful creation returns a strictly larger id. -/
theorem escrow_claim_C7 (st : Storage) (c : Ctx) (p db id₁ : Nat)
    (hret : (call (.create p db) c st).2 = some id₁) :
    id₁ = counterOf (call (.create p db) c st).1 ∧ id₁ = counterOf st + 1 ∧
    ∀ st₂ (c' : Ctx) (p' db' id₂ : Nat), Steps (call (.create p db) c st).1 st₂ →
      (call (.create p' db') c' st₂).2 = some id₂ → id₁ < id₂ := by
  have hok : (call (.create p db) c st).2.isSome = true := by
    rw [hret]
    rfl
  obtain ⟨hcnt, hval⟩ := counterOf_call_create c p db st hok
  rw [hret] at hval
  have hid₁ : id₁ = counterOf st + 1 := Option.some.inj hval
  refine ⟨by rw [hcnt, hid₁], hid₁, ?_⟩
  intro st₂ c' p' db' id₂ hsteps hret₂
  have hok₂ : (call (.create p' db') c' st₂).2.isSome = true := by
    rw [hret₂]
    rfl
  obtain ⟨_, hval₂⟩ := counterOf_call_create c' p' db' st₂ hok₂
  rw [hret₂] at hval₂
  have hid₂ : id₂ = counterOf st₂ + 1 := Option.some.inj hval₂
  have hmono := counterOf_le_steps hsteps
  rw [hcnt] at hmono
  omega

theorem escrow_claim_C7_witness :
    (call (.create 5 6) cSeller deployed).2 = some 1 ∧
      1 = counterOf (call (.create 5 6) cSeller deployed).1 :=
  ⟨by decide, (escrow_claim_C7 deployed cSeller 5 6 1 (by decide)).1⟩

/-- C8: for every caller and every order id, `acceptOrder` succeeds iff the
order's state is Created and the current height is at most its deadline; on
success the buyer is set to the caller, `acceptedAt` to the current height,
the state to Accepted — so a second `acceptOrder` on the same order fails. -/
theorem escrow_claim_C8 (st : Storage) (c : Ctx) (id : Nat) (hc : Ctx.wf c)
    (hid : id < U64_MOD) :
    (isOk (run (.accept id) c st) = true ↔
      stateOf st id = STATE_CREATED ∧ c.height ≤ deadlineOf st id) ∧
    (isOk (run (.accept id) c st) = true →
      buyerOf (call (.accept id) c st).1 id = c.sender ∧
      acceptedAtOf (call (.accept id) c st).1 id = c.height ∧
      stateOf (call (.accept id) c st).1 id = STATE_ACCEPTED ∧
      ∀ c' : Ctx, isOk (run (.accept id) c' (call (.accept id) c st).1) = false) := by
  have hiff : isOk (run (.accept id) c st) = true ↔
      stateOf st id = STATE_CREATED ∧ c.height ≤ deadlineOf st id := by
    simp only [run, acceptOrder]
    by_cases h1 : stateOf st id = STATE_CREATED
    · by_cases h2 : c.height ≤ deadlineOf st id
      · rw [if_pos h1, if_pos h2]
        simp [isOk, h1, h2]
      · rw [if_pos h1, if_neg h2]
        simp [isOk, h2]
    · rw [if_neg h1]
      simp [isOk, h1]
  refine ⟨hiff, fun hok => ?_⟩
  obtain ⟨h1, h2⟩ := hiff.mp hok
  have hcall : (call (.accept id) c st).1 = acceptPost c id st := by
    simp only [call, run, acceptOrder, if_pos h1, if_pos h2]
  rw [hcall]
  refine ⟨buyerOf_acceptPost_self c id st, ?_, ?_, ?_⟩
  · rw [acceptedAtOf_acceptPost _ _ _ _ hid hid, if_pos rfl, toU64_small hc.2]
  · rw [stateOf_acceptPost _ _ _ _ hid hid, if_pos rfl]
  · intro c'
    apply accept_fails_of_state
    rw [stateOf_acceptPost _ _ _ _ hid hid, if_pos rfl]
    decide

theorem escrow_claim_C8_witness :
    Ctx.wf cBuyer ∧ (1 : Nat) < U64_MOD ∧ isOk (run (.accept 1) cBuyer stC) = true :=
  ⟨⟨by decide, by decide⟩, by decide,
    (escrow_claim_C8 stC cBuyer 1 ⟨by decide, by decide⟩ (by decide)).1.mpr
      ⟨by decide, by decide⟩⟩

/-! ## Round-trip lemmas: each operation's writes read back via getOrder -/

theorem roundtrip_create (st : Storage) (c : Ctx) (p db id₁ : Nat)
    (hret : (call (.create p db) c st).2 = some id₁) :
    (getOrder id₁ (call (.create p db) c st).1).seller = c.sender ∧
    (getOrder id₁ (call (.create p db) c st).1).price = p ∧
    (getOrder id₁ (call (.create p db) c st).1).locked = 0 ∧
    (getOrder id₁ (call (.create p db) c st).1).state = STATE_CREATED ∧
    (getOrder id₁ (call (.create p db) c st).1).deadline = c.height + db ∧
    (getOrder id₁ (call (.create p db) c st).1).acceptedAt = 0 := by
  have hconds : ¬p = 0 ∧ ¬db < 6 ∧ ¬U64_MOD ≤ counterOf st + 1 ∧
      ¬U64_MOD ≤ c.height + db ∧ id₁ = counterOf st + 1 := by
    simp only [call, run, createOrder_eq] at hret
    split_ifs at hret with h1 h2 h3 h4
    exact ⟨h1, h2, h3, h4,
      (Option.some.inj (show some (counterOf st + 1) = some id₁ from hret)).symm⟩
  obtain ⟨h1, h2, h3, h4, rfl⟩ := hconds
  have hcall : (call (.create p db) c st).1 = createPost c p db (counterOf st + 1) st := by
    simp only [call, run, createOrder_eq, if_neg h1, if_neg h2, if_neg h3, if_neg h4]
  rw [hcall]
  have hoid : counterOf st + 1 < U64_MOD := by omega
  refine ⟨?_, ?_, ?_, ?_, ?_, ?_⟩
  · simp only [getOrder]
    exact sellerOf_createPost_self c p db _ st
  · simp only [getOrder]
    rw [priceOf_createPost _ _ _ _ _ _ hoid hoid, if_pos rfl]
  · simp only [getOrder]
    rw [lockedOf_createPost _ _ _ _ _ _ hoid hoid, if_pos rfl]
  · simp only [getOrder]
    rw [stateOf_createPost _ _ _ _ _ _ hoid hoid, if_pos rfl]
    decide
  · simp only [getOrder]
    rw [deadlineOf_createPost _ _ _ _ _ _ hoid hoid, if_pos rfl, toU64_small (by omega)]
  · simp only [getOrder]
    rw [acceptedAtOf_createPost _ _ _ _ _ _ hoid hoid, if_pos rfl]

theorem roundtrip_accept (st : Storage) (c : Ctx) (hc : Ctx.wf c) (id : Nat)
    (hid : id < U64_MOD) (hok : isOk (run (.accept id) c st) = true) :
    (getOrder id (call (.accept id) c st).1).buyer = c.sender ∧
    (getOrder id (call (.accept id) c st).1).state = STATE_ACCEPTED ∧
    (getOrder id (call (.accept id) c st).1).acceptedAt = c.height := by
  simp only [run, acceptOrder] at hok
  by_cases h1 : stateOf st id = STATE_CREATED
  · by_cases h2 : c.height ≤ deadlineOf st id
    · have hcall : (call (.accept id) c st).1 = acceptPost c id st := by
        simp only [call, run, acceptOrder, if_pos h1, if_pos h2]
      rw [hcall]
      refine ⟨?_, ?_, ?_⟩
      · simp only [getOrder]
        exact buyerOf_acceptPost_self c id st
      · simp only [getOrder]
        rw [stateOf_acceptPost _ _ _ _ hid hid, if_pos rfl]
        decide
      · simp only [getOrder]
        rw [acceptedAtOf_acceptPost _ _ _ _ hid hid, if_pos rfl, toU64_small hc.2]
    · rw [if_pos h1, if_neg h2] at hok
      simp [isOk] at hok
  · rw [if_neg h1] at hok
    simp [isOk] at hok

theorem roundtrip_fund (st : Storage) (c : Ctx) (id : Nat)
    (hid : id < U64_MOD) (hok : isOk (run (.fund id) c st) = true) :
    (getOrder id (call (.fund id) c st).1).locked = priceOf st id ∧
    (getOrder id (call (.fund id) c st).1).state = STATE_FUNDED := by
  simp only [run, fundOrder] at hok
  by_cases h1 : stateOf st id = STATE_ACCEPTED
  · by_cases h2 : buyerOf st id = c.sender
    · have hcall : (call (.fund id) c st).1 = fundPost id st := by
        simp only [call, run, fundOrder, if_pos h1, if_pos h2]
      rw [hcall]
      refine ⟨?_, ?_⟩
      · simp only [getOrder]
        rw [lockedOf_fundPost _ _ _ hid hid, if_pos rfl]
      · simp only [getOrder]
        rw [stateOf_fundPost _ _ _ hid hid, if_pos rfl]
        decide
    · rw [if_pos h1, if_neg h2] at hok
      simp [isOk] at hok
  · rw [if_neg h1] at hok
    simp [isOk] at hok

theorem roundtrip_confirm (st : Storage) (c : Ctx) (id : Nat)
    (hid : id < U64_MOD) (hok : isOk (run (.confirm id) c st) = true) :
    (getOrder id (call (.confirm id) c st).1).locked = 0 ∧
    (getOrder id (call (.confirm id) c st).1).state = STATE_COMPLETED := by
  simp only [run, confirmCompletion] at hok
  by_cases h1 : stateOf st id = STATE_FUNDED
  · by_cases h2 : buyerOf st id = c.sender
    · have hcall : (call (.confirm id) c st).1 = confirmPost id st := by
        simp only [call, run, confirmCompletion, if_pos h1, if_pos h2]
      rw [hcall]
      refine ⟨?_, ?_⟩
      · simp only [getOrder]
        rw [lockedOf_confirmPost _ _ _ hid hid, if_pos rfl]
      · simp only [getOrder]
        rw [stateOf_confirmPost _ _ _ hid hid, if_pos rfl]
        decide
    · rw [if_pos h1, if_neg h2] at hok
      simp [isOk] at hok
  · rw [if_neg h1] at hok
    simp [isOk] at hok

theorem roundtrip_cancel (st : Storage) (c : Ctx) (id : Nat)
    (hid : id < U64_MOD) (hok : isOk (run (.cancel id) c st) = true) :
    (getOrder id (call (.cancel id) c st).1).locked = 0 ∧
    (getOrder id (call (.cancel id) c st).1).state = STATE_CANCELLED := by
  simp only [run, cancelOrder] at hok
  by_cases h1 : stateOf st id = STATE_CREATED ∨ stateOf st id = STATE_ACCEPTED ∨
      stateOf st id = STATE_FUNDED ∨ stateOf st id = STATE_DISPUTED
  · by_cases h2 : sellerOf st id = c.sender ∨ buyerOf st id = c.sender
    · have hcall : (call (.cancel id) c st).1 = cancelPost id st := by
        simp only [call, run, cancelOrder, if_pos h1, if_pos h2]
      rw [hcall]
      refine ⟨?_, ?_⟩
      · simp only [getOrder]
        rw [lockedOf_cancelPost _ _ _ hid hid, if_pos rfl]
      · simp only [getOrder]
        rw [stateOf_cancelPost _ _ _ hid hid, if_pos rfl]
        decide
    · rw [if_pos h1, if_neg h2] at hok
      simp [isOk] at hok
  · rw [if_neg h1] at hok
    simp [isOk] at hok

theorem roundtrip_dispute (st : Storage) (c : Ctx) (id : Nat)
    (hid : id < U64_MOD) (hok : isOk (run (.dispute id) c st) = true) :
    (getOrder id (call (.dispute id) c st).1).state = STATE_DISPUTED := by
  simp only [run, openDispute] at hok
  by_cases h1 : stateOf st id = STATE_FUNDED
  · by_cases h2 : sellerOf st id = c.sender ∨ buyerOf st id = c.sender
    · have hcall : (call (.dispute id) c st).1 = disputePost id st := by
        simp only [call, run, openDispute, if_pos h1, if_pos h2]
      rw [hcall]
      simp only [getOrder]
      rw [stateOf_disputePost _ _ _ hid hid, if_pos rfl]
      decide
    · rw [if_pos h1, if_neg h2] at hok
      simp [isOk] at hok
  · rw [if_neg h1] at hok
    simp [isOk] at hok

/-- C9: round-trip: every field a successful mutating operation writes is
returned unchanged by `getOrder` on the same order immediately afterwards, in
each of the six resulting states — createOrder → (seller, price, locked = 0,
state Created, deadline, acceptedAt = 0); acceptOrder → (buyer, state
Accepted, acceptedAt); fundOrder → (locked = stored price, state Funded);
confirmCompletion → (locked = 0, state Completed); cancelOrder → (locked = 0,
state Cancelled); openDispute → (state Disputed). -/
theorem escrow_claim_C9 (st : Storage) (c : Ctx) (hc : Ctx.wf c) :
    (∀ p db id₁, (call (.create p db) c st).2 = some id₁ →
      (getOrder id₁ (call (.create p db) c st).1).seller = c.sender ∧
      (getOrder id₁ (call (.create p db) c st).1).price = p ∧
      (getOrder id₁ (call (.create p db) c st).1).locked = 0 ∧
      (getOrder id₁ (call (.create p db) c st).1).state = STATE_CREATED ∧
      (getOrder id₁ (call (.create p db) c st).1).deadline = c.height + db ∧
      (getOrder id₁ (call (.create p db) c st).1).acceptedAt = 0) ∧
    (∀ id, id < U64_MOD → isOk (run (.accept id) c st) = true →
      (getOrder id (call (.accept id) c st).1).buyer = c.sender ∧
      (getOrder id (call (.accept id) c st).1).state = STATE_ACCEPTED ∧
      (getOrder id (call (.accept id) c st).1).acceptedAt = c.height) ∧
    (∀ id, id < U64_MOD → isOk (run (.fund id) c st) = true →
      (getOrder id (call (.fund id) c st).1).locked = priceOf st id ∧
      (getOrder id (call (.fund id) c st).1).state = STATE_FUNDED) ∧
    (∀ id, id < U64_MOD → isOk (run (.confirm id) c st) = true →
      (getOrder id (call (.confirm id) c st).1).locked = 0 ∧
      (getOrder id (call (.confirm id) c st).1).state = STATE_COMPLETED) ∧
    (∀ id, id < U64_MOD → isOk (run (.cancel id) c st) = true →
      (getOrder id (call (.cancel id) c st).1).locked = 0 ∧
      (getOrder id (call (.cancel id) c st).1).state = STATE_CANCELLED) ∧
    (∀ id, id < U64_MOD → isOk (run (.dispute id) c st) = true →
      (getOrder id (call (.dispute id) c st).1).state = STATE_DISPUTED) :=
  ⟨fun p db id₁ hret => roundtrip_create st c p db id₁ hret,
   fun id hid hok => roundtrip_accept st c hc id hid hok,
   fun id hid hok => roundtrip_fund st c id hid hok,
   fun id hid hok => roundtrip_confirm st c id hid hok,
   fun id hid hok => roundtrip_cancel st c id hid hok,
   fun id hid hok => roundtrip_dispute st c id hid hok⟩

theorem escrow_claim_C9_witness :
    Ctx.wf cSeller ∧ (call (.create 5 6) cSeller deployed).2 = some 1 ∧
      (getOrder 1 (call (.create 5 6) cSeller deployed).1).price = 5 :=
  ⟨⟨by decide, by decide⟩, by decide,
    ((escrow_claim_C9 deployed cSeller ⟨by decide, by decide⟩).1 5 6 1 (by decide)).2.1⟩

end Escrow
